import Mathlib

set_option maxRecDepth 10000

/-!
Shallow embedding of `src/receipts_analysis.py` (pandas receipts analyzer).

Tables are lists of rows; pandas columns with possible NaN are `Option` fields.
Quantities are `Int` (CSV integers, possibly negative), prices and revenues are
`Rat` (exact model of the numeric column arithmetic).
-/

namespace ReceiptsAnalysis

/-- A calendar date, the result of parsing an InvoiceDate cell. -/
structure Date where
  year : Nat
  month : Nat
  day : Nat
deriving DecidableEq

/-- A raw CSV row as produced by `pd.read_csv`: every cell may be missing (NaN). -/
structure RawRow where
  invoiceNo : Option String
  stockCode : Option String
  description : Option String
  quantity : Option Int
  invoiceDate : Option String
  unitPrice : Option Rat
  customerID : Option String
  country : Option String
deriving DecidableEq

/-- A working row of the dataframe inside `clean_data`, after the InvoiceDate
column has been overwritten with parsed dates (line 28) and with slots for the
derived TotalPrice and YearMonth columns (none until lines 50-51 assign them). -/
structure WRow where
  invoiceNo : Option String
  stockCode : Option String
  description : Option String
  quantity : Option Int
  invoiceDate : Option Date
  unitPrice : Option Rat
  customerID : Option String
  country : Option String
  totalPrice : Option Rat
  yearMonth : Option String
deriving DecidableEq

/-- Digit test, as in Python / pandas date digit scanning. -/
def isDigitChar (c : Char) : Bool :=
  ('0' ≤ c) && (c ≤ '9')

/-- Parse a non-empty all-digit character list as a natural number. -/
def natOfDigits? (cs : List Char) : Option Nat :=
  if cs.isEmpty then none
  else
    cs.foldl
      (fun acc c =>
        match acc with
        | none => none
        | some n => if isDigitChar c then some (n * 10 + (c.toNat - 48)) else none)
      (some 0)

/-- Split a character list on a separator character (keeping empty pieces). -/
def splitOnChar (sep : Char) : List Char → List (List Char)
  | [] => [[]]
  | c :: rest =>
    let r := splitOnChar sep rest
    if c = sep then [] :: r
    else
      match r with
      | [] => [[c]]
      | g :: gs => (c :: g) :: gs

/-- Modelled from the library call `pd.to_datetime(col, errors="coerce")` at
line 28, restricted to ISO `YYYY-MM-DD` date strings (the shape the claims
exercise): an unparseable string coerces to `none` (NaT). -/
def parseDate (s : String) : Option Date :=
  match splitOnChar '-' s.data with
  | [ys, ms, ds] =>
    match natOfDigits? ys, natOfDigits? ms, natOfDigits? ds with
    | some y, some m, some d =>
      if 1 ≤ m && m ≤ 12 && 1 ≤ d && d ≤ 31 then some (Date.mk y m d) else none
    | _, _, _ => none
  | _ => none

/-- Modelled from pandas `astype(str)`: a NaN cell renders as the string "nan",
a present cell as its string value. -/
def optStr (o : Option String) : String :=
  o.getD "nan"

/-- Python-style single-character `str.startswith`: the first character equals `c`. -/
def startsWith1 (s : String) (c : Char) : Bool :=
  match s.data with
  | [] => false
  | d :: _ => d = c

/-- Whitespace test for Python `str.strip`. -/
def isSpaceChar (c : Char) : Bool :=
  c = ' ' || c = '\t' || c = '\n' || c = '\r'

/-- Drop leading whitespace characters. -/
def dropLeading : List Char → List Char
  | [] => []
  | c :: rest => if isSpaceChar c then dropLeading rest else c :: rest

/-- Modelled from Python `str.strip()` as used by `.str.strip()` (lines 54-55):
remove leading and trailing whitespace. -/
def pyStrip (s : String) : String :=
  String.mk ((dropLeading ((dropLeading s.data).reverse)).reverse)

/-- Two-digit zero padding for month numbers. -/
def pad2 (n : Nat) : String :=
  if n < 10 then "0" ++ toString n else toString n

/-- Four-digit zero padding for year numbers. -/
def pad4 (n : Nat) : String :=
  if n < 10 then "000" ++ toString n
  else if n < 100 then "00" ++ toString n
  else if n < 1000 then "0" ++ toString n
  else toString n

/-- Modelled from `dt.to_period("M").astype(str)` (line 51): format a date at
month granularity as `YYYY-MM`. -/
def fmtYM (d : Date) : String :=
  pad4 d.year ++ "-" ++ pad2 d.month

/-- Line 28: `df["InvoiceDate"] = pd.to_datetime(df["InvoiceDate"], errors="coerce")`
applied to one row: a missing or unparseable date cell becomes null (NaT). -/
def parseRow (r : RawRow) : WRow :=
  ⟨r.invoiceNo, r.stockCode, r.description, r.quantity,
   r.invoiceDate.bind parseDate, r.unitPrice, r.customerID, r.country,
   none, none⟩

/-- The date-parsing pass over the whole table (line 28). -/
def parseDates (df : List RawRow) : List WRow :=
  df.map parseRow

/-- The seven-column null check of `dropna(subset=[...])` (lines 31-41). -/
def notNull (r : WRow) : Bool :=
  r.invoiceNo.isSome && r.stockCode.isSome && r.description.isSome &&
  r.quantity.isSome && r.invoiceDate.isSome && r.unitPrice.isSome && r.country.isSome

/-- Line 31: `df = df.dropna(subset=[...])`. -/
def dropnaStep (df : List WRow) : List WRow :=
  df.filter notNull

/-- Line 44 predicate: `~df["InvoiceNo"].astype(str).str.startswith("C")`. -/
def notCancelled (r : WRow) : Bool :=
  !(startsWith1 (optStr r.invoiceNo) 'C')

/-- Line 44: remove cancelled invoices. -/
def cancelFilter (df : List WRow) : List WRow :=
  df.filter notCancelled

/-- `df["Quantity"] > 0` on one cell; a NaN comparison is False in pandas. -/
def qtyPos (r : WRow) : Bool :=
  match r.quantity with
  | some q => decide (0 < q)
  | none => false

/-- `df["UnitPrice"] > 0` on one cell; a NaN comparison is False in pandas. -/
def pricePos (r : WRow) : Bool :=
  match r.unitPrice with
  | some p => decide (0 < p)
  | none => false

/-- Line 47: `df = df[(df["Quantity"] > 0) & (df["UnitPrice"] > 0)]`. -/
def posFilter (df : List WRow) : List WRow :=
  df.filter (fun r => qtyPos r && pricePos r)

/-- Line 50 on one row: `df["TotalPrice"] = df["Quantity"] * df["UnitPrice"]`
(NaN propagates when either operand is missing). -/
def totalPrice1 (r : WRow) : WRow :=
  ⟨r.invoiceNo, r.stockCode, r.description, r.quantity, r.invoiceDate,
   r.unitPrice, r.customerID, r.country,
   (match r.quantity, r.unitPrice with
    | some q, some p => some ((q : Rat) * p)
    | _, _ => none),
   r.yearMonth⟩

/-- Line 50 over the table. -/
def totalPriceStep (df : List WRow) : List WRow :=
  df.map totalPrice1

/-- Line 51 on one row: `df["YearMonth"] = df["InvoiceDate"].dt.to_period("M").astype(str)`
(a NaT date renders as the string "NaT"). -/
def yearMonth1 (r : WRow) : WRow :=
  ⟨r.invoiceNo, r.stockCode, r.description, r.quantity, r.invoiceDate,
   r.unitPrice, r.customerID, r.country, r.totalPrice,
   some (match r.invoiceDate with
         | some d => fmtYM d
         | none => "NaT")⟩

/-- Line 51 over the table. -/
def yearMonthStep (df : List WRow) : List WRow :=
  df.map yearMonth1

/-- Line 54 on one row: `df["Description"] = df["Description"].astype(str).str.strip()`. -/
def trimDesc1 (r : WRow) : WRow :=
  ⟨r.invoiceNo, r.stockCode, some (pyStrip (optStr r.description)), r.quantity,
   r.invoiceDate, r.unitPrice, r.customerID, r.country, r.totalPrice, r.yearMonth⟩

/-- Line 54 over the table. -/
def trimDescStep (df : List WRow) : List WRow :=
  df.map trimDesc1

/-- Line 55 on one row: `df["Country"] = df["Country"].astype(str).str.strip()`. -/
def trimCountry1 (r : WRow) : WRow :=
  ⟨r.invoiceNo, r.stockCode, r.description, r.quantity, r.invoiceDate,
   r.unitPrice, r.customerID, some (pyStrip (optStr r.country)), r.totalPrice,
   r.yearMonth⟩

/-- Line 55 over the table. -/
def trimCountryStep (df : List WRow) : List WRow :=
  df.map trimCountry1

/-- `clean_data` (lines 23-57): the composition of the seven cleaning steps in
source order (the initial `df.copy()` is value-transparent; the stateful copy
semantics is modelled separately by `clean_data_st`). -/
def clean_data (df : List RawRow) : List WRow :=
  trimCountryStep (trimDescStep (yearMonthStep (totalPriceStep
    (posFilter (cancelFilter (dropnaStep (parseDates df)))))))

/-- The row-survival predicate implied by the three filters of `clean_data`. -/
def keepRow (r : RawRow) : Bool :=
  notNull (parseRow r) && notCancelled (parseRow r) &&
  (qtyPos (parseRow r) && pricePos (parseRow r))

/-- The per-row enrichment applied by `clean_data` to a surviving row. -/
def enrichRow (r : RawRow) : WRow :=
  trimCountry1 (trimDesc1 (yearMonth1 (totalPrice1 (parseRow r))))

/-! Code-point lexicographic order on strings, the order pandas uses when
sorting string group keys and string sort columns. -/

/-- Strict lexicographic order on character lists (by code point). -/
def lexLt : List Char → List Char → Bool
  | [], [] => false
  | [], _ :: _ => true
  | _ :: _, [] => false
  | a :: as, b :: bs => if a < b then true else if a = b then lexLt as bs else false

/-- Lexicographic less-or-equal, the complement of the reversed strict order. -/
def lexLe (as bs : List Char) : Bool :=
  !(lexLt bs as)

/-- String less-or-equal by code-point lexicographic order. -/
def strLeR (a b : String) : Prop :=
  lexLe a.data b.data = true

/-- String strictly-less by code-point lexicographic order. -/
def strLtR (a b : String) : Prop :=
  lexLt a.data b.data = true

instance : DecidableRel strLeR :=
  fun a b => decidable_of_iff (lexLe a.data b.data = true) Iff.rfl

instance : DecidableRel strLtR :=
  fun a b => decidable_of_iff (lexLt a.data b.data = true) Iff.rfl

/-- Key order on (key, revenue) pairs, used by `sort_values("YearMonth")`. -/
def keyLe (a b : String × Rat) : Prop :=
  strLeR a.1 b.1

/-- Reverse revenue order on (key, revenue) pairs, used by
`sort_values("TotalPrice", ascending=False)`. -/
def revGe (a b : String × Rat) : Prop :=
  b.2 ≤ a.2

instance : DecidableRel keyLe :=
  fun a b => inferInstanceAs (Decidable (strLeR a.1 b.1))

instance : DecidableRel revGe :=
  fun a b => inferInstanceAs (Decidable (b.2 ≤ a.2))

instance : IsTrans (String × Rat) revGe :=
  ⟨fun _ _ _ h1 h2 => le_trans h2 h1⟩

instance : IsTotal (String × Rat) revGe :=
  ⟨fun a b => (le_total b.2 a.2).imp (fun h => h) (fun h => h)⟩

/-- The TotalPrice cell as summed by the pandas `sum` aggregation
(a NaN cell contributes nothing). -/
def tp (r : WRow) : Rat :=
  r.totalPrice.getD 0

/-- Sum of the TotalPrice column over a table. -/
def tpsum (df : List WRow) : Rat :=
  (df.map tp).sum

/-- Modelled from `df.groupby(k, as_index=False)["TotalPrice"].sum()`
(lines 62, 71, 81): one row per distinct non-null key, keys sorted ascending
(pandas groupby sorts keys), each paired with the TotalPrice sum of its group;
rows with a null key are dropped by pandas groupby. -/
def groupbySum (key : WRow → Option String) (df : List WRow) : List (String × Rat) :=
  (List.insertionSort strLeR (df.filterMap key).dedup).map
    (fun k => (k, tpsum (df.filter (fun r => key r == some k))))

/-- `monthly_revenue` (lines 60-66): group by YearMonth, sum TotalPrice, sort
ascending by YearMonth (the rename to "Revenue" does not change the values). -/
def monthly_revenue (df : List WRow) : List (String × Rat) :=
  List.insertionSort keyLe (groupbySum (fun r => r.yearMonth) df)

/-- `top_countries` (lines 69-76): group by Country, sum TotalPrice, sort by
revenue descending, take the first `n` rows. -/
def top_countries (df : List WRow) (n : Nat) : List (String × Rat) :=
  (List.insertionSort revGe (groupbySum (fun r => r.country) df)).take n

/-- `top_products` (lines 79-86): group by Description, sum TotalPrice, sort by
revenue descending, take the first `n` rows. -/
def top_products (df : List WRow) (n : Nat) : List (String × Rat) :=
  (List.insertionSort revGe (groupbySum (fun r => r.description) df)).take n

/-! Loading and error propagation (`load_data`, lines 16-20), with the column
accesses of `clean_data` made explicit so that a missing required column can be
expressed. -/

/-- A parsed CSV file: its header row and its (typed) data rows. -/
structure Csv where
  headers : List String
  rows : List RawRow
deriving DecidableEq

/-- The failure kinds a run can surface: the explicit existence check of
`load_data`, a propagated `pd.read_csv` parse failure, and a pandas `KeyError`
raised by a column access on an absent column. -/
inductive PipeErr where
  | missingInput (msg : String)
  | malformedInput (msg : String)
  | keyError (col : String)
deriving DecidableEq

/-- `load_data` (lines 16-20): raise FileNotFoundError when the path does not
exist, otherwise return the result of `pd.read_csv`, whose parse failure
propagates. `pathExists` models `path.exists()` and `readCsv` models
`pd.read_csv`. -/
def load_data (pathExists : String → Bool) (readCsv : String → Except String Csv)
    (path : String) : Except PipeErr Csv :=
  if pathExists path then
    match readCsv path with
    | Except.ok t => Except.ok t
    | Except.error e => Except.error (PipeErr.malformedInput e)
  else Except.error (PipeErr.missingInput ("Raw data not found at: " ++ path))

/-- The column list of `dropna(subset=[...])` (lines 32-40). -/
def dropnaSubset : List String :=
  ["InvoiceNo", "StockCode", "Description", "Quantity", "InvoiceDate",
   "UnitPrice", "Country"]

/-- `clean_data` with its pandas column accesses made explicit: line 28 reads
column InvoiceDate (KeyError when absent), line 31 requires every `dropna`
subset column (KeyError listing the missing ones); all later accesses are to
columns in that subset or to columns created by the function itself. -/
def clean_data_checked (t : Csv) : Except PipeErr (List WRow) :=
  if "InvoiceDate" ∈ t.headers then
    match dropnaSubset.filter (fun c => !(t.headers.contains c)) with
    | [] => Except.ok (clean_data t.rows)
    | missing => Except.error (PipeErr.keyError (String.intercalate ", " missing))
  else Except.error (PipeErr.keyError "InvoiceDate")

/-- The load-then-clean prefix of `main` (lines 128-129). -/
def run_load_clean (pathExists : String → Bool) (readCsv : String → Except String Csv)
    (path : String) : Except PipeErr (List WRow) :=
  (load_data pathExists readCsv path).bind clean_data_checked

/-- The full in-memory analysis of `main` (lines 129-134): the four tables that
`save_tables` then writes out. -/
def pipeline_tables (df : List RawRow) :
    List WRow × (List (String × Rat) × (List (String × Rat) × List (String × Rat))) :=
  (clean_data df,
   (monthly_revenue (clean_data df),
    (top_countries (clean_data df) 10, top_products (clean_data df) 10)))

/-! Object-store model of the dataframe mutation inside `clean_data`: the
argument dataframe is an object in a heap; `df = df.copy()` allocates a fresh
object, in-place column assignments (lines 28, 50, 51, 54, 55) write to the
current object, and the filtering reassignments (lines 31, 44, 47) allocate
fresh objects, exactly as pandas does. -/

/-- A dataframe object: either still the raw shape or the working shape that
exists after the InvoiceDate column is overwritten with parsed dates. -/
inductive DFVal where
  | raw (t : List RawRow)
  | work (t : List WRow)
deriving DecidableEq

/-- View an object as a raw table. -/
def toRawV : DFVal → List RawRow
  | DFVal.raw t => t
  | DFVal.work _ => []

/-- View an object as a working table. -/
def toWorkV : DFVal → List WRow
  | DFVal.work t => t
  | DFVal.raw _ => []

/-- A heap of dataframe objects with an allocation counter. -/
structure Heap where
  store : Nat → DFVal
  next : Nat

/-- Allocate a fresh object holding `v`; returns the new heap and the address. -/
def halloc (h : Heap) (v : DFVal) : Heap × Nat :=
  (Heap.mk (fun i => if i = h.next then v else h.store i) (h.next + 1), h.next)

/-- Overwrite the object at address `i` (an in-place column assignment). -/
def hwrite (h : Heap) (i : Nat) (v : DFVal) : Heap :=
  Heap.mk (fun j => if j = i then v else h.store j) h.next

/-- `clean_data` as a heap computation on the object graph: `p` is the address
of the caller's raw dataframe. Line 25 copies it; every later statement reads
and writes only the copy or dataframes derived from it. Returns the final heap
and the address of the result. -/
def clean_data_st (h0 : Heap) (p : Nat) : Heap × Nat :=
  let a1 := halloc h0 (h0.store p)
  let h1 := a1.1
  let d1 := a1.2
  let h2 := hwrite h1 d1 (DFVal.work (parseDates (toRawV (h1.store d1))))
  let a2 := halloc h2 (DFVal.work (dropnaStep (toWorkV (h2.store d1))))
  let h3 := a2.1
  let d2 := a2.2
  let a3 := halloc h3 (DFVal.work (cancelFilter (toWorkV (h3.store d2))))
  let h4 := a3.1
  let d3 := a3.2
  let a4 := halloc h4 (DFVal.work (posFilter (toWorkV (h4.store d3))))
  let h5 := a4.1
  let d4 := a4.2
  let h6 := hwrite h5 d4 (DFVal.work (totalPriceStep (toWorkV (h5.store d4))))
  let h7 := hwrite h6 d4 (DFVal.work (yearMonthStep (toWorkV (h6.store d4))))
  let h8 := hwrite h7 d4 (DFVal.work (trimDescStep (toWorkV (h7.store d4))))
  let h9 := hwrite h8 d4 (DFVal.work (trimCountryStep (toWorkV (h8.store d4))))
  (h9, d4)

/-! Claim-level predicates and the concrete rows used by the spec scenarios. -/

/-- The invariant every clean row must satisfy (claim C1): positive quantity,
positive unit price, invoice id not a cancellation, all seven checked fields
present. -/
def CleanRowInvariant (r : WRow) : Prop :=
  (∃ q, r.quantity = some q ∧ 0 < q) ∧
  (∃ p, r.unitPrice = some p ∧ 0 < p) ∧
  startsWith1 (optStr r.invoiceNo) 'C' = false ∧
  r.invoiceNo.isSome = true ∧ r.stockCode.isSome = true ∧
  r.description.isSome = true ∧ r.quantity.isSome = true ∧
  r.invoiceDate.isSome = true ∧ r.unitPrice.isSome = true ∧
  r.country.isSome = true

/-- The conditions under which a raw row survives all cleaning steps
(claim C2): timestamp parses, the seven checked fields are non-null, the
invoice id does not start with the character C, quantity and unit price are
positive. -/
def SurvivesCleaning (r : RawRow) : Prop :=
  (r.invoiceDate.bind parseDate).isSome = true ∧
  r.invoiceNo.isSome = true ∧ r.stockCode.isSome = true ∧
  r.description.isSome = true ∧ r.quantity.isSome = true ∧
  r.unitPrice.isSome = true ∧ r.country.isSome = true ∧
  startsWith1 (optStr r.invoiceNo) 'C' = false ∧
  (∃ q, r.quantity = some q ∧ 0 < q) ∧
  (∃ p, r.unitPrice = some p ∧ 0 < p)

/-- Spec scenario row: InvoiceNo "C100", Quantity 5, UnitPrice 2.0. -/
def c100Row : RawRow :=
  ⟨some "C100", some "22145", some "HOLDER", some 5, some "2011-01-05",
   some 2, some "17850", some "United Kingdom"⟩

/-- Spec scenario row: Quantity 2, UnitPrice 1.5 (TotalPrice must be 3.0). -/
def c5Row : RawRow :=
  ⟨some "536365", some "85123A", some "HOLDER", some 2, some "2011-01-05",
   some (3 / 2), some "17850", some "United Kingdom"⟩

/-- Spec scenario row dated 2011-01-05 with quantity 1 and unit price 10
(TotalPrice 10). -/
def mRow1 : RawRow :=
  ⟨some "536365", some "85123A", some "HOLDER", some 1, some "2011-01-05",
   some 10, some "17850", some "United Kingdom"⟩

/-- Spec scenario row dated 2011-01-20 with quantity 1 and unit price 20
(TotalPrice 20). -/
def mRow2 : RawRow :=
  ⟨some "536812", some "85123A", some "HOLDER", some 1, some "2011-01-20",
   some 20, some "17850", some "United Kingdom"⟩

/-- A row whose description is whitespace-only but otherwise valid (claim C10). -/
def wsDescRow : RawRow :=
  ⟨some "536365", some "85123A", some "   ", some 2, some "2011-01-05",
   some 5, some "17850", some "France"⟩

/-- A parsed CSV whose header lacks the InvoiceDate column. -/
def noDateCsv : Csv :=
  ⟨["InvoiceNo", "StockCode", "Description", "Quantity", "UnitPrice", "Country"],
   []⟩

/-- A parsed CSV with InvoiceDate present but the Country column (a `dropna`
subset column) absent. -/
def noCountryCsv : Csv :=
  ⟨["InvoiceNo", "StockCode", "Description", "Quantity", "InvoiceDate", "UnitPrice"],
   []⟩

/-! Auxiliary lemmas. -/

@[simp]
theorem parseRow_invoiceNo (r : RawRow) : (parseRow r).invoiceNo = r.invoiceNo := rfl

@[simp]
theorem parseRow_stockCode (r : RawRow) : (parseRow r).stockCode = r.stockCode := rfl

@[simp]
theorem parseRow_description (r : RawRow) : (parseRow r).description = r.description := rfl

@[simp]
theorem parseRow_quantity (r : RawRow) : (parseRow r).quantity = r.quantity := rfl

@[simp]
theorem parseRow_invoiceDate (r : RawRow) :
    (parseRow r).invoiceDate = r.invoiceDate.bind parseDate := rfl

@[simp]
theorem parseRow_unitPrice (r : RawRow) : (parseRow r).unitPrice = r.unitPrice := rfl

@[simp]
theorem parseRow_country (r : RawRow) : (parseRow r).country = r.country := rfl

@[simp]
theorem enrichRow_invoiceNo (r : RawRow) : (enrichRow r).invoiceNo = r.invoiceNo := rfl

@[simp]
theorem enrichRow_stockCode (r : RawRow) : (enrichRow r).stockCode = r.stockCode := rfl

@[simp]
theorem enrichRow_description (r : RawRow) :
    (enrichRow r).description = some (pyStrip (optStr r.description)) := rfl

@[simp]
theorem enrichRow_quantity (r : RawRow) : (enrichRow r).quantity = r.quantity := rfl

@[simp]
theorem enrichRow_invoiceDate (r : RawRow) :
    (enrichRow r).invoiceDate = r.invoiceDate.bind parseDate := rfl

@[simp]
theorem enrichRow_unitPrice (r : RawRow) : (enrichRow r).unitPrice = r.unitPrice := rfl

@[simp]
theorem enrichRow_country (r : RawRow) :
    (enrichRow r).country = some (pyStrip (optStr r.country)) := rfl

@[simp]
theorem enrichRow_totalPrice (r : RawRow) :
    (enrichRow r).totalPrice =
      (match r.quantity, r.unitPrice with
       | some q, some p => some ((q : Rat) * p)
       | _, _ => none) := rfl

@[simp]
theorem enrichRow_yearMonth (r : RawRow) :
    (enrichRow r).yearMonth =
      some (match r.invoiceDate.bind parseDate with
            | some d => fmtYM d
            | none => "NaT") := rfl

theorem lexLt_cons (a b : Char) (as bs : List Char) :
    lexLt (a :: as) (b :: bs) = true ↔ (a < b ∨ (a = b ∧ lexLt as bs = true)) := by
  simp only [lexLt]
  by_cases hab : a < b
  · simp [hab]
  · by_cases heq : a = b
    · simp [hab, heq]
    · simp [hab, heq]

theorem lexLt_irrefl : ∀ as : List Char, lexLt as as = false := by
  intro as
  induction as with
  | nil => rfl
  | cons a as ih => simp [lexLt, lt_irrefl, ih]

theorem lexLt_trans :
    ∀ as bs cs : List Char,
      lexLt as bs = true → lexLt bs cs = true → lexLt as cs = true := by
  intro as
  induction as with
  | nil =>
    intro bs cs h1 h2
    cases bs with
    | nil => cases h1
    | cons b bs =>
      cases cs with
      | nil => cases h2
      | cons c cs => rfl
  | cons a as ih =>
    intro bs cs h1 h2
    cases bs with
    | nil => cases h1
    | cons b bs =>
      cases cs with
      | nil => cases h2
      | cons c cs =>
        rw [lexLt_cons] at h1 h2 ⊢
        rcases h1 with h1 | ⟨h1e, h1l⟩
        · rcases h2 with h2 | ⟨h2e, h2l⟩
          · exact Or.inl (lt_trans h1 h2)
          · exact Or.inl (h2e ▸ h1)
        · rcases h2 with h2 | ⟨h2e, h2l⟩
          · exact Or.inl (by rw [h1e]; exact h2)
          · exact Or.inr ⟨h1e.trans h2e, ih bs cs h1l h2l⟩

theorem lexLt_total3 :
    ∀ as bs : List Char, lexLt as bs = true ∨ as = bs ∨ lexLt bs as = true := by
  intro as
  induction as with
  | nil =>
    intro bs
    cases bs with
    | nil => exact Or.inr (Or.inl rfl)
    | cons b bs => exact Or.inl rfl
  | cons a as ih =>
    intro bs
    cases bs with
    | nil => exact Or.inr (Or.inr rfl)
    | cons b bs =>
      rcases lt_trichotomy a b with h | h | h
      · exact Or.inl ((lexLt_cons a b as bs).mpr (Or.inl h))
      · rcases ih bs with h2 | h2 | h2
        · exact Or.inl ((lexLt_cons a b as bs).mpr (Or.inr ⟨h, h2⟩))
        · exact Or.inr (Or.inl (by rw [h, h2]))
        · exact Or.inr (Or.inr ((lexLt_cons b a bs as).mpr (Or.inr ⟨h.symm, h2⟩)))
      · exact Or.inr (Or.inr ((lexLt_cons b a bs as).mpr (Or.inl h)))

theorem lexLt_asymm (as bs : List Char) (h : lexLt as bs = true) : lexLt bs as = false := by
  cases hba : lexLt bs as with
  | false => rfl
  | true =>
    have habs := lexLt_trans as bs as h hba
    rw [lexLt_irrefl] at habs
    cases habs

theorem string_data_inj {a b : String} (h : a.data = b.data) : a = b :=
  String.ext h

theorem strLeR_isTrans : IsTrans String strLeR := by
  constructor
  intro a b c h1 h2
  simp only [strLeR, lexLe, Bool.not_eq_true'] at h1 h2 ⊢
  cases hca : lexLt c.data a.data with
  | false => rfl
  | true =>
    rcases lexLt_total3 a.data b.data with h | h | h
    · have hcb := lexLt_trans c.data a.data b.data hca h
      rw [hcb] at h2
      cases h2
    · rw [h] at hca
      rw [hca] at h2
      cases h2
    · rw [h] at h1
      cases h1

theorem strLeR_isTotal : IsTotal String strLeR := by
  constructor
  intro a b
  simp only [strLeR, lexLe, Bool.not_eq_true']
  rcases lexLt_total3 a.data b.data with h | h | h
  · exact Or.inl (lexLt_asymm _ _ h)
  · exact Or.inl (by rw [h, lexLt_irrefl])
  · exact Or.inr (lexLt_asymm _ _ h)

theorem keyLe_isTrans : IsTrans (String × Rat) keyLe :=
  ⟨fun a b c h1 h2 => strLeR_isTrans.trans a.1 b.1 c.1 h1 h2⟩

theorem keyLe_isTotal : IsTotal (String × Rat) keyLe :=
  ⟨fun a b => strLeR_isTotal.total a.1 b.1⟩

theorem strLeR_ne_lt {a b : String} (hle : strLeR a b) (hne : a ≠ b) : strLtR a b := by
  simp only [strLeR, lexLe, Bool.not_eq_true'] at hle
  rcases lexLt_total3 a.data b.data with h | h | h
  · exact h
  · exact absurd (string_data_inj h) hne
  · rw [h] at hle
    cases hle

theorem qtyPos_iff (w : WRow) : qtyPos w = true ↔ ∃ q, w.quantity = some q ∧ 0 < q := by
  unfold qtyPos
  cases hq : w.quantity with
  | none => simp
  | some q => simp [decide_eq_true_iff]

theorem pricePos_iff (w : WRow) : pricePos w = true ↔ ∃ p, w.unitPrice = some p ∧ 0 < p := by
  unfold pricePos
  cases hp : w.unitPrice with
  | none => simp
  | some p => simp [decide_eq_true_iff]

theorem keepRow_bool (r : RawRow) :
    ((qtyPos (parseRow r) && pricePos (parseRow r)) &&
      (notCancelled (parseRow r) && notNull (parseRow r))) = keepRow r := by
  unfold keepRow
  cases notNull (parseRow r) <;> cases notCancelled (parseRow r) <;>
    cases qtyPos (parseRow r) <;> cases pricePos (parseRow r) <;> rfl

/-- Fused form of the cleaning pipeline: a raw row survives iff `keepRow`
holds and is then transformed by `enrichRow`. -/
theorem clean_data_eq (df : List RawRow) :
    clean_data df = (df.filter keepRow).map enrichRow := by
  unfold clean_data parseDates dropnaStep cancelFilter posFilter totalPriceStep
    yearMonthStep trimDescStep trimCountryStep
  simp only [List.filter_map, List.filter_filter, List.map_map, Function.comp]
  rw [List.filter_congr (fun r _ => keepRow_bool r)]
  exact List.map_congr_left (fun r _ => rfl)

theorem mem_clean_data {df : List RawRow} {w : WRow} :
    w ∈ clean_data df ↔ ∃ r, r ∈ df ∧ keepRow r = true ∧ w = enrichRow r := by
  rw [clean_data_eq]
  constructor
  · intro h
    rcases List.mem_map.mp h with ⟨r, hr, hw⟩
    rcases List.mem_filter.mp hr with ⟨hrdf, hk⟩
    exact ⟨r, hrdf, hk, hw.symm⟩
  · rintro ⟨r, hrdf, hk, rfl⟩
    exact List.mem_map.mpr ⟨r, List.mem_filter.mpr ⟨hrdf, hk⟩, rfl⟩

theorem notNull_iff (w : WRow) : notNull w = true ↔
    (w.invoiceNo.isSome = true ∧ w.stockCode.isSome = true ∧
     w.description.isSome = true ∧ w.quantity.isSome = true ∧
     w.invoiceDate.isSome = true ∧ w.unitPrice.isSome = true ∧
     w.country.isSome = true) := by
  unfold notNull
  simp only [Bool.and_eq_true]
  tauto

theorem notCancelled_iff (w : WRow) :
    notCancelled w = true ↔ startsWith1 (optStr w.invoiceNo) 'C' = false := by
  unfold notCancelled
  cases startsWith1 (optStr w.invoiceNo) 'C' <;> simp

theorem keepRow_iff (r : RawRow) : keepRow r = true ↔ SurvivesCleaning r := by
  unfold keepRow SurvivesCleaning
  simp only [Bool.and_eq_true, notNull_iff, notCancelled_iff, qtyPos_iff, pricePos_iff,
    parseRow_invoiceNo, parseRow_stockCode, parseRow_description, parseRow_quantity,
    parseRow_invoiceDate, parseRow_unitPrice, parseRow_country]
  tauto

/-! Claim theorems. -/

/-- C1: every row of the clean output produced by `clean_data` has positive
quantity, positive unit price, an invoice id whose string form does not start
with "C", and none of the seven null-checked fields (invoice id, stock code,
description, quantity, timestamp, unit price, country) null. -/
theorem clean_rows_invariant_C1 :
    ∀ (df : List RawRow) (w : WRow), w ∈ clean_data df → CleanRowInvariant w := by
  intro df w hw
  rcases mem_clean_data.mp hw with ⟨r, _, hk, rfl⟩
  rcases (keepRow_iff r).mp hk with ⟨hID, hIN, hSC, _, hQ, hUP, _, hC, hq, hp⟩
  rcases hq with ⟨q, hq1, hq2⟩
  rcases hp with ⟨p, hp1, hp2⟩
  refine ⟨⟨q, by rw [enrichRow_quantity, hq1], hq2⟩,
          ⟨p, by rw [enrichRow_unitPrice, hp1], hp2⟩,
          by rw [enrichRow_invoiceNo]; exact hC,
          by rw [enrichRow_invoiceNo]; exact hIN,
          by rw [enrichRow_stockCode]; exact hSC,
          by rw [enrichRow_description]; rfl,
          by rw [enrichRow_quantity]; exact hQ,
          by rw [enrichRow_invoiceDate]; exact hID,
          by rw [enrichRow_unitPrice]; exact hUP,
          by rw [enrichRow_country]; rfl⟩

/-- C1 witness: the invariant holds for the cleaned form of the concrete row
`c5Row`, obtained by applying the claim theorem. -/
theorem clean_rows_invariant_C1_witness : CleanRowInvariant (enrichRow c5Row) :=
  clean_rows_invariant_C1 [c5Row] (enrichRow c5Row) (by with_unfolding_all decide)

/-- C2: a raw row appears in the clean output iff its timestamp parses, all
seven checked fields are non-null, its invoice id does not start with the
character C, its quantity and unit price are positive; a row either survives
all steps (and appears as its enriched form) or is excluded entirely. In
particular the row with InvoiceNo "C100", Quantity 5, UnitPrice 2.0 is
excluded. -/
theorem clean_membership_C2 :
    (∀ (df : List RawRow) (w : WRow),
      w ∈ clean_data df ↔ ∃ r, r ∈ df ∧ SurvivesCleaning r ∧ w = enrichRow r) ∧
    clean_data [c100Row] = [] := by
  constructor
  · intro df w
    rw [mem_clean_data]
    constructor
    · rintro ⟨r, h1, h2, h3⟩
      exact ⟨r, h1, (keepRow_iff r).mp h2, h3⟩
    · rintro ⟨r, h1, h2, h3⟩
      exact ⟨r, h1, (keepRow_iff r).mpr h2, h3⟩
  · decide

/-- C2 witness: applying the membership characterization to the concrete row
`c5Row` puts its enriched form in the clean output. -/
theorem clean_membership_C2_witness : enrichRow c5Row ∈ clean_data [c5Row] :=
  (clean_membership_C2.1 [c5Row] (enrichRow c5Row)).mpr
    ⟨c5Row, List.mem_cons_self c5Row [],
     ⟨rfl, rfl, rfl, rfl, rfl, rfl, rfl, rfl,
      ⟨2, rfl, by decide⟩, ⟨3 / 2, rfl, by with_unfolding_all decide⟩⟩, rfl⟩

/-- C5: in every clean row the derived TotalPrice equals quantity times unit
price exactly (numeric columns modelled as exact rationals); in particular a
surviving row with Quantity 2 and UnitPrice 1.5 has TotalPrice 3.0. -/
theorem total_price_exact_C5 :
    (∀ (df : List RawRow) (w : WRow), w ∈ clean_data df →
      ∃ q p, w.quantity = some q ∧ w.unitPrice = some p ∧
        w.totalPrice = some ((q : Rat) * p)) ∧
    (clean_data [c5Row]).map (fun w => w.totalPrice) = [some 3] := by
  constructor
  · intro df w hw
    rcases mem_clean_data.mp hw with ⟨r, _, hk, rfl⟩
    rcases (keepRow_iff r).mp hk with ⟨_, _, _, _, _, _, _, _, ⟨q, hq, _⟩, ⟨p, hp, _⟩⟩
    refine ⟨q, p, by rw [enrichRow_quantity, hq], by rw [enrichRow_unitPrice, hp], ?_⟩
    rw [enrichRow_totalPrice, hq, hp]
  · with_unfolding_all decide

/-- C5 witness: the exactness statement applied to the concrete row `c5Row`. -/
theorem total_price_exact_C5_witness :
    ∃ q p, (enrichRow c5Row).quantity = some q ∧ (enrichRow c5Row).unitPrice = some p ∧
      (enrichRow c5Row).totalPrice = some ((q : Rat) * p) :=
  total_price_exact_C5.1 [c5Row] (enrichRow c5Row) (by with_unfolding_all decide)

theorem tpsum_nil : tpsum [] = 0 := rfl

theorem tpsum_cons (r : WRow) (l : List WRow) : tpsum (r :: l) = tp r + tpsum l := by
  simp [tpsum]

theorem sum_map_if_mem (ks : List String) (k0 : String) (a : Rat) (A : String → Rat)
    (hnd : ks.Nodup) (hmem : k0 ∈ ks) :
    (ks.map (fun k => if k0 = k then a + A k else A k)).sum = a + (ks.map A).sum := by
  induction ks with
  | nil => cases hmem
  | cons k ks ih =>
    rcases List.mem_cons.mp hmem with h | h
    · subst h
      simp only [List.map_cons, List.sum_cons, eq_self_iff_true, if_true]
      have hrest : ks.map (fun k => if k0 = k then a + A k else A k) = ks.map A := by
        apply List.map_congr_left
        intro x hx
        have hne : k0 ≠ x := by
          rintro rfl
          exact (List.nodup_cons.mp hnd).1 hx
        rw [if_neg hne]
      rw [hrest]
      ring
    · have hk : k0 ≠ k := by
        rintro rfl
        exact (List.nodup_cons.mp hnd).1 h
      simp only [List.map_cons, List.sum_cons, if_neg hk]
      rw [ih (List.nodup_cons.mp hnd).2 h]
      ring

theorem tpsum_filter_partition (key : WRow → Option String) (ks : List String)
    (df : List WRow) (hnd : ks.Nodup)
    (hcov : ∀ r ∈ df, ∃ k, key r = some k ∧ k ∈ ks) :
    (ks.map (fun k => tpsum (df.filter (fun r => key r == some k)))).sum = tpsum df := by
  induction df with
  | nil =>
    simp only [List.filter_nil, tpsum_nil]
    exact List.sum_eq_zero (by intro x hx; rcases List.mem_map.mp hx with ⟨k, _, hk⟩; exact hk.symm)
  | cons r df ih =>
    obtain ⟨k0, hk0, hk0mem⟩ := hcov r (List.mem_cons_self r df)
    have hcov2 : ∀ x ∈ df, ∃ k, key x = some k ∧ k ∈ ks :=
      fun x hx => hcov x (List.mem_cons_of_mem r hx)
    have hstep : ∀ k, (r :: df).filter (fun x => key x == some k) =
        (if k0 = k then r :: df.filter (fun x => key x == some k)
         else df.filter (fun x => key x == some k)) := by
      intro k
      rw [List.filter_cons]
      by_cases h : k0 = k
      · subst h
        rw [if_pos rfl, if_pos (by rw [hk0]; simp)]
      · rw [if_neg h, if_neg (by rw [hk0]; simp; exact h)]
    have hmapeq : ks.map (fun k => tpsum ((r :: df).filter (fun x => key x == some k))) =
        ks.map (fun k => if k0 = k then tp r + tpsum (df.filter (fun x => key x == some k))
                         else tpsum (df.filter (fun x => key x == some k))) := by
      apply List.map_congr_left
      intro k _
      rw [hstep k]
      by_cases h : k0 = k
      · rw [if_pos h, if_pos h, tpsum_cons]
      · rw [if_neg h, if_neg h]
    rw [hmapeq, sum_map_if_mem ks k0 (tp r) _ hnd hk0mem, ih hcov2, tpsum_cons]

theorem groupbySum_mem {key : WRow → Option String} {df : List WRow}
    {kv : String × Rat} (h : kv ∈ groupbySum key df) :
    kv.2 = tpsum (df.filter (fun r => key r == some kv.1)) := by
  unfold groupbySum at h
  rcases List.mem_map.mp h with ⟨k, _, he⟩
  rw [← he]

theorem groupbySum_fst (key : WRow → Option String) (df : List WRow) :
    (groupbySum key df).map Prod.fst =
      List.insertionSort strLeR (df.filterMap key).dedup := by
  unfold groupbySum
  rw [List.map_map]
  have h : ∀ k ∈ List.insertionSort strLeR (df.filterMap key).dedup,
      (Prod.fst ∘ fun k => (k, tpsum (df.filter (fun r => key r == some k)))) k = id k :=
    fun k _ => rfl
  rw [List.map_congr_left h, List.map_id]

theorem groupbySum_fst_nodup (key : WRow → Option String) (df : List WRow) :
    ((groupbySum key df).map Prod.fst).Nodup := by
  rw [groupbySum_fst]
  exact ((List.perm_insertionSort strLeR _).nodup_iff).mpr (List.nodup_dedup _)

theorem groupbySum_snd_sum (key : WRow → Option String) (df : List WRow)
    (hcov : ∀ r ∈ df, (key r).isSome = true) :
    ((groupbySum key df).map Prod.snd).sum = tpsum df := by
  unfold groupbySum
  rw [List.map_map]
  apply tpsum_filter_partition
  · exact ((List.perm_insertionSort strLeR _).nodup_iff).mpr (List.nodup_dedup _)
  · intro r hr
    rcases Option.isSome_iff_exists.mp (hcov r hr) with ⟨k, hk⟩
    refine ⟨k, hk, ?_⟩
    rw [List.mem_insertionSort, List.mem_dedup]
    exact List.mem_filterMap.mpr ⟨r, hr, hk⟩

/-- C3: `monthly_revenue` of a clean table has exactly one row per distinct
YearMonth value (distinct keys covering exactly the YearMonth values present),
is sorted strictly ascending by YearMonth, each revenue is the TotalPrice sum
of that month, and the revenues sum to the TotalPrice total of the whole clean
table; two clean rows dated 2011-01-05 and 2011-01-20 with TotalPrice 10 and
20 yield the single row ("2011-01", 30). -/
theorem monthly_revenue_C3 :
    (∀ df : List RawRow,
      ((monthly_revenue (clean_data df)).map Prod.fst).Nodup ∧
      (∀ k, k ∈ (monthly_revenue (clean_data df)).map Prod.fst ↔
        k ∈ (clean_data df).filterMap (fun r => r.yearMonth)) ∧
      (monthly_revenue (clean_data df)).Pairwise (fun a b => strLtR a.1 b.1) ∧
      (∀ kv ∈ monthly_revenue (clean_data df),
        kv.2 = tpsum ((clean_data df).filter (fun r => r.yearMonth == some kv.1))) ∧
      ((monthly_revenue (clean_data df)).map Prod.snd).sum = tpsum (clean_data df)) ∧
    monthly_revenue (clean_data [mRow1, mRow2]) = [("2011-01", 30)] := by
  constructor
  · intro df
    have hperm : List.Perm (monthly_revenue (clean_data df))
        (groupbySum (fun r => r.yearMonth) (clean_data df)) :=
      List.perm_insertionSort keyLe _
    have hfstperm : List.Perm ((monthly_revenue (clean_data df)).map Prod.fst)
        ((groupbySum (fun r => r.yearMonth) (clean_data df)).map Prod.fst) :=
      hperm.map Prod.fst
    have hnodup : ((monthly_revenue (clean_data df)).map Prod.fst).Nodup :=
      hfstperm.nodup_iff.mpr (groupbySum_fst_nodup _ _)
    refine ⟨hnodup, ?_, ?_, ?_, ?_⟩
    · intro k
      rw [hfstperm.mem_iff, groupbySum_fst, List.mem_insertionSort, List.mem_dedup]
    · haveI := keyLe_isTrans
      haveI := keyLe_isTotal
      have hsorted : List.Pairwise keyLe (monthly_revenue (clean_data df)) :=
        List.sorted_insertionSort keyLe _
      have hne : (monthly_revenue (clean_data df)).Pairwise (fun a b => a.1 ≠ b.1) :=
        List.pairwise_map.mp hnodup
      exact (hsorted.and hne).imp (fun h => strLeR_ne_lt h.1 h.2)
    · intro kv hkv
      exact groupbySum_mem (hperm.subset hkv)
    · rw [(hperm.map Prod.snd).sum_eq]
      apply groupbySum_snd_sum
      intro r hr
      rcases mem_clean_data.mp hr with ⟨r0, _, _, rfl⟩
      rw [enrichRow_yearMonth]
      rfl
  · with_unfolding_all decide

/-- C3 witness: the revenue of the concrete monthly row ("2011-01", 30) equals
the TotalPrice sum of that month, by the claim theorem. -/
theorem monthly_revenue_C3_witness :
    (("2011-01", (30 : Rat))).2 =
      tpsum ((clean_data [mRow1, mRow2]).filter
        (fun r => r.yearMonth == some (("2011-01", (30 : Rat))).1)) :=
  (monthly_revenue_C3.1 [mRow1, mRow2]).2.2.2.1 ("2011-01", 30)
    (by with_unfolding_all decide)

/-- C4: on every clean table, `top_countries` and `top_products` return at most
10 rows, sorted non-increasing by revenue (tie order implementation-defined),
and every listed revenue is the exact TotalPrice sum of its group in the clean
table. -/
theorem top_n_C4 :
    ∀ df : List RawRow,
      (top_countries (clean_data df) 10).length ≤ 10 ∧
      (top_products (clean_data df) 10).length ≤ 10 ∧
      (top_countries (clean_data df) 10).Pairwise (fun a b => b.2 ≤ a.2) ∧
      (top_products (clean_data df) 10).Pairwise (fun a b => b.2 ≤ a.2) ∧
      (∀ kv ∈ top_countries (clean_data df) 10,
        kv.2 = tpsum ((clean_data df).filter (fun r => r.country == some kv.1))) ∧
      (∀ kv ∈ top_products (clean_data df) 10,
        kv.2 = tpsum ((clean_data df).filter (fun r => r.description == some kv.1))) := by
  intro df
  refine ⟨List.length_take_le 10 _, List.length_take_le 10 _, ?_, ?_, ?_, ?_⟩
  · exact List.Pairwise.sublist (List.take_sublist _ _)
      (List.sorted_insertionSort revGe _)
  · exact List.Pairwise.sublist (List.take_sublist _ _)
      (List.sorted_insertionSort revGe _)
  · intro kv hkv
    exact groupbySum_mem
      ((List.perm_insertionSort revGe _).subset (List.take_subset _ _ hkv))
  · intro kv hkv
    exact groupbySum_mem
      ((List.perm_insertionSort revGe _).subset (List.take_subset _ _ hkv))

/-- C4 witness: the concrete row ("United Kingdom", 30) listed by
`top_countries` carries the exact group sum, by the claim theorem. -/
theorem top_n_C4_witness :
    (("United Kingdom", (30 : Rat))).2 =
      tpsum ((clean_data [mRow1, mRow2]).filter
        (fun r => r.country == some (("United Kingdom", (30 : Rat))).1)) :=
  (top_n_C4 [mRow1, mRow2]).2.2.2.2.1 ("United Kingdom", 30)
    (by with_unfolding_all decide)

/-- C6: `load_data` fails with the MissingInput (FileNotFoundError) error
exactly when the path does not exist, and that check happens before any read:
when the path is missing the outcome does not depend on the reader at all. -/
theorem load_data_missing_C6 :
    ∀ (pathExists : String → Bool) (readCsv : String → Except String Csv) (path : String),
      ((∃ m, load_data pathExists readCsv path = Except.error (PipeErr.missingInput m)) ↔
        pathExists path = false) ∧
      (pathExists path = false →
        ∀ readCsv2 : String → Except String Csv,
          load_data pathExists readCsv path = load_data pathExists readCsv2 path) := by
  intro pe rc path
  constructor
  · constructor
    · rintro ⟨m, hm⟩
      unfold load_data at hm
      cases hpe : pe path with
      | false => rfl
      | true =>
        rw [hpe] at hm
        simp only [if_true] at hm
        cases hrc : rc path with
        | ok t => rw [hrc] at hm; cases hm
        | error e => rw [hrc] at hm; cases hm
    · intro hpe
      refine ⟨"Raw data not found at: " ++ path, ?_⟩
      unfold load_data
      rw [hpe]
      simp
  · intro hpe rc2
    unfold load_data
    rw [hpe]
    simp

/-- C6 witness: with a path that does not exist, the outcome is independent of
the reader, by the claim theorem. -/
theorem load_data_missing_C6_witness :
    load_data (fun _ => false) (fun _ => Except.ok noDateCsv) "x" =
      load_data (fun _ => false) (fun _ => Except.error "boom") "x" :=
  (load_data_missing_C6 (fun _ => false) (fun _ => Except.ok noDateCsv) "x").2 rfl
    (fun _ => Except.error "boom")

/-- C7 counterexample: an input whose file exists and parses but lacks the
required InvoiceDate column is NOT reported by the loading step (loading
succeeds) and the resulting failure is a KeyError raised at the cleaning
step, not a MalformedInput parse failure. -/
theorem malformed_at_load_C7_counterexample :
    load_data (fun _ => true) (fun _ => Except.ok noDateCsv) "data.csv" =
      Except.ok noDateCsv ∧
    clean_data_checked noDateCsv = Except.error (PipeErr.keyError "InvoiceDate") ∧
    run_load_clean (fun _ => true) (fun _ => Except.ok noDateCsv) "data.csv" =
      Except.error (PipeErr.keyError "InvoiceDate") :=
  ⟨rfl, rfl, rfl⟩

/-- C7 (amended): an existing file that fails to parse makes the run fail with
the propagated MalformedInput parse failure raised by the loading step; an
absent required column makes the run fail with a KeyError raised by the
cleaning step, not the loading step — whether the missing column is
InvoiceDate (first access, line 28) or any `dropna` subset column with
InvoiceDate present (line 31, the KeyError listing the missing columns); both
failures are fatal with no partial output. -/
theorem error_reporting_C7 :
    ∀ (pathExists : String → Bool) (readCsv : String → Except String Csv)
      (path : String) (e : String) (t : Csv),
      (pathExists path = true → readCsv path = Except.error e →
        load_data pathExists readCsv path = Except.error (PipeErr.malformedInput e) ∧
        run_load_clean pathExists readCsv path =
          Except.error (PipeErr.malformedInput e)) ∧
      (pathExists path = true → readCsv path = Except.ok t →
        "InvoiceDate" ∉ t.headers →
        run_load_clean pathExists readCsv path =
          Except.error (PipeErr.keyError "InvoiceDate")) ∧
      (pathExists path = true → readCsv path = Except.ok t →
        "InvoiceDate" ∈ t.headers →
        (∃ c ∈ dropnaSubset, c ∉ t.headers) →
        ∃ cols, cols ≠ [] ∧ (∀ c ∈ cols, c ∈ dropnaSubset ∧ c ∉ t.headers) ∧
          run_load_clean pathExists readCsv path =
            Except.error (PipeErr.keyError (String.intercalate ", " cols))) := by
  intro pe rc path e t
  refine ⟨?_, ?_, ?_⟩
  · intro hpe hrc
    have hl : load_data pe rc path = Except.error (PipeErr.malformedInput e) := by
      unfold load_data
      rw [hpe, hrc]
      simp
    exact ⟨hl, by unfold run_load_clean; rw [hl]; rfl⟩
  · intro hpe hrc hnd
    have hl : load_data pe rc path = Except.ok t := by
      unfold load_data
      rw [hpe, hrc]
      simp
    unfold run_load_clean
    rw [hl]
    show clean_data_checked t = _
    unfold clean_data_checked
    rw [if_neg hnd]
  · intro hpe hrc hmem hmissing
    have hl : load_data pe rc path = Except.ok t := by
      unfold load_data
      rw [hpe, hrc]
      simp
    refine ⟨dropnaSubset.filter (fun c => !(t.headers.contains c)), ?_, ?_, ?_⟩
    · obtain ⟨c, hc1, hc2⟩ := hmissing
      exact List.ne_nil_of_mem (List.mem_filter.mpr ⟨hc1, by simpa using hc2⟩)
    · intro c hc
      have h2 := List.mem_filter.mp hc
      exact ⟨h2.1, by simpa using h2.2⟩
    · unfold run_load_clean
      rw [hl]
      show clean_data_checked t = _
      unfold clean_data_checked
      rw [if_pos hmem]
      cases hfil : dropnaSubset.filter (fun c => !(t.headers.contains c)) with
      | nil =>
        obtain ⟨c, hc1, hc2⟩ := hmissing
        have hcmem : c ∈ dropnaSubset.filter (fun c => !(t.headers.contains c)) :=
          List.mem_filter.mpr ⟨hc1, by simpa using hc2⟩
        rw [hfil] at hcmem
        cases hcmem
      | cons c cs =>
        rfl

/-- C7 (amended) witness: the concrete CSV with InvoiceDate present but the
Country column absent fails at the cleaning step with a KeyError listing the
missing subset column, by the amended theorem. -/
theorem error_reporting_C7_witness :
    ∃ cols, cols ≠ [] ∧ (∀ c ∈ cols, c ∈ dropnaSubset ∧ c ∉ noCountryCsv.headers) ∧
      run_load_clean (fun _ => true) (fun _ => Except.ok noCountryCsv) "data.csv" =
        Except.error (PipeErr.keyError (String.intercalate ", " cols)) :=
  (error_reporting_C7 (fun _ => true) (fun _ => Except.ok noCountryCsv) "data.csv"
    "" noCountryCsv).2.2 rfl rfl (by decide) ⟨"Country", by decide, by decide⟩

/-- C8: the composition of cleaning and the three aggregations is a
deterministic function of the input table: two runs on the same input produce
identical output tables. -/
theorem pipeline_deterministic_C8 :
    ∀ df1 df2 : List RawRow, df1 = df2 → pipeline_tables df1 = pipeline_tables df2 := by
  intro df1 df2 h
  rw [h]

/-- C8 witness: two runs on the concrete input produce identical tables. -/
theorem pipeline_deterministic_C8_witness :
    pipeline_tables [mRow1] = pipeline_tables [mRow1] :=
  pipeline_deterministic_C8 [mRow1] [mRow1] rfl

/-- C9: `clean_data` does not mutate its argument: in the object-store model,
every object that existed before the call (in particular the raw dataframe
passed in) is unchanged afterwards, and the returned object holds exactly the
value of the pure cleaning pipeline applied to the argument value. -/
theorem clean_data_no_mutation_C9 :
    ∀ (h0 : Heap) (p : Nat) (df : List RawRow),
      p < h0.next → h0.store p = DFVal.raw df →
      (∀ i, i < h0.next → ((clean_data_st h0 p).1).store i = h0.store i) ∧
      ((clean_data_st h0 p).1).store ((clean_data_st h0 p).2) =
        DFVal.work (clean_data df) := by
  intro h0 p df hp hstore
  constructor
  · intro i hi
    simp only [clean_data_st, halloc, hwrite]
    split_ifs <;> first | rfl | omega
  · simp only [clean_data_st, halloc, hwrite, eq_self_iff_true, if_true]
    rw [hstore]
    rfl

/-- C9 witness: a concrete one-object heap is unchanged at the argument
address after the call, by the claim theorem. -/
theorem clean_data_no_mutation_C9_witness :
    ((clean_data_st (Heap.mk (fun _ => DFVal.raw [c5Row]) 1) 0).1).store 0 =
      DFVal.raw [c5Row] :=
  (clean_data_no_mutation_C9 (Heap.mk (fun _ => DFVal.raw [c5Row]) 1) 0 [c5Row]
    (by decide) rfl).1 0 (by decide)

/-- C10: a raw row whose description is whitespace-only but which passes all
other filters is not dropped by the null check; it survives cleaning with an
empty-string description (trimming happens after all filtering), so grouping
by description can produce a group keyed by the empty string. -/
theorem whitespace_description_C10 :
    (∀ (df : List RawRow) (r : RawRow) (s : String),
      r ∈ df → SurvivesCleaning r → r.description = some s → pyStrip s = "" →
      enrichRow r ∈ clean_data df ∧ (enrichRow r).description = some "") ∧
    clean_data [wsDescRow] = [enrichRow wsDescRow] ∧
    (enrichRow wsDescRow).description = some "" ∧
    top_products (clean_data [wsDescRow]) 10 = [("", 10)] := by
  refine ⟨?_, by with_unfolding_all decide, by decide, by with_unfolding_all decide⟩
  intro df r s hmem hs hdesc htrim
  constructor
  · exact mem_clean_data.mpr ⟨r, hmem, (keepRow_iff r).mpr hs, rfl⟩
  · rw [enrichRow_description, hdesc]
    show some (pyStrip s) = some ""
    rw [htrim]

/-- C10 witness: the concrete whitespace-description row survives cleaning
with an empty description, by the claim theorem. -/
theorem whitespace_description_C10_witness :
    enrichRow wsDescRow ∈ clean_data [wsDescRow] ∧
    (enrichRow wsDescRow).description = some "" :=
  whitespace_description_C10.1 [wsDescRow] wsDescRow "   "
    (List.mem_cons_self _ _)
    ⟨rfl, rfl, rfl, rfl, rfl, rfl, rfl, rfl, ⟨2, rfl, by decide⟩, ⟨5, rfl, by decide⟩⟩
    rfl rfl

end ReceiptsAnalysis
